import Mathlib

/-!
Verification of the indicator engine in `rs1.py`.

The computational core of the repository is the four functions
`calculate_rsi`, `calculate_macd`, `calculate_sma` (lines 82-100) and the
top-level glue (lines 103-115: empty-data guard, indicator columns,
`current_rsi = stock_data['RSI'].iloc[-1]` and the `rsi_status` ternary).

The pandas `Series` values arising in that pipeline are IEEE doubles where
three non-finite behaviours matter: `diff(1)` puts NaN at index 0,
`avg_gain / avg_loss` produces NaN on `0/0` and +inf on `g/0` with `g > 0`,
and `100 - 100/(1 + inf)` collapses back to the finite value `100`.
We embed such a cell as `FVal`: an exact rational, +inf, -inf, or NaN.
All finite arithmetic is exact (ℚ), which is faithful for every claim here:
none of the claims is about rounding.
-/

/-- A pandas/IEEE numeric cell: a finite value (modelled exactly as a
rational), positive infinity, negative infinity, or NaN.  NaN doubles as
the "undefined / missing" marker, exactly as in pandas. -/
inductive FVal where
  | num (q : ℚ)
  | inf
  | ninf
  | nan
deriving DecidableEq, Repr

namespace FVal

/-- IEEE addition on the cells that can arise (NaN absorbs; inf + finite = inf). -/
def add : FVal → FVal → FVal
  | nan, _ => nan
  | _, nan => nan
  | num a, num b => num (a + b)
  | num _, inf => inf
  | inf, num _ => inf
  | inf, inf => inf
  | num _, ninf => ninf
  | ninf, num _ => ninf
  | ninf, ninf => ninf
  | inf, ninf => nan
  | ninf, inf => nan

/-- IEEE subtraction. -/
def sub : FVal → FVal → FVal
  | nan, _ => nan
  | _, nan => nan
  | num a, num b => num (a - b)
  | num _, inf => ninf
  | num _, ninf => inf
  | inf, num _ => inf
  | ninf, num _ => ninf
  | inf, inf => nan
  | inf, ninf => inf
  | ninf, inf => ninf
  | ninf, ninf => nan

/-- IEEE negation. -/
def neg : FVal → FVal
  | nan => nan
  | num a => num (-a)
  | inf => ninf
  | ninf => inf

/-- IEEE division as numpy performs it on Series: `0/0 = NaN`,
`a/0 = ±inf` by the sign of `a`, `finite/±inf = 0`. -/
def div : FVal → FVal → FVal
  | nan, _ => nan
  | _, nan => nan
  | num a, num b =>
      if b = 0 then (if a = 0 then nan else if 0 < a then inf else ninf)
      else num (a / b)
  | num _, inf => num 0
  | num _, ninf => num 0
  | inf, num b => if 0 ≤ b then inf else ninf
  | ninf, num b => if 0 ≤ b then ninf else inf
  | inf, inf => nan
  | inf, ninf => nan
  | ninf, inf => nan
  | ninf, ninf => nan

/-- `Series.clip(lower=0)`: NaN is preserved, finite values are floored at 0. -/
def clipLower0 : FVal → FVal
  | nan => nan
  | num a => num (max a 0)
  | inf => inf
  | ninf => num 0

/-- `Series.clip(upper=0)`: NaN is preserved, finite values are capped at 0. -/
def clipUpper0 : FVal → FVal
  | nan => nan
  | num a => num (min a 0)
  | inf => num 0
  | ninf => ninf

/-- Is this cell a defined (finite) number?  In pandas terms: not NaN and
not an infinity. -/
def isNum : FVal → Bool
  | num _ => true
  | _ => false

/-- IEEE `>` : any comparison involving NaN is false. -/
def fgt : FVal → FVal → Bool
  | num a, num b => b < a
  | inf, num _ => true
  | num _, ninf => true
  | inf, ninf => true
  | _, _ => false

/-- IEEE `<` : any comparison involving NaN is false. -/
def flt : FVal → FVal → Bool
  | num a, num b => a < b
  | num _, inf => true
  | ninf, num _ => true
  | ninf, inf => true
  | _, _ => false

end FVal

/-! ## The indicator functions of `rs1.py` (lines 82-100)

The `'Close'` column is modelled as a `List ℚ` (the downloaded prices are
finite numbers); every derived Series is a `List FVal` aligned by position.
-/

/-- Tail of `Series.diff(1)`: consecutive differences, carrying the previous
value along. -/
def diffFrom (prev : ℚ) : List ℚ → List ℚ
  | [] => []
  | x :: xs => (x - prev) :: diffFrom x xs

/-- `data['Close'].diff(1)`: NaN at index 0, then `price[i] - price[i-1]`. -/
def delta (close : List ℚ) : List FVal :=
  match close with
  | [] => []
  | p :: ps => FVal.nan :: (diffFrom p ps).map FVal.num

/-- `gain = delta.clip(lower=0)` (line 84). -/
def gain (close : List ℚ) : List FVal :=
  (delta close).map FVal.clipLower0

/-- `loss = -delta.clip(upper=0)` (line 85). -/
def loss (close : List ℚ) : List FVal :=
  (delta close).map (fun v => (FVal.clipUpper0 v).neg)

/-- Worker for `Series.ewm(alpha, adjust=False).mean()`.  The state is the
last mean, `none` before the first defined observation.  With
`adjust=False` pandas seeds the mean at the first non-NaN value and then
applies `m' = (1-α)·m + α·x`; a NaN cell before the seed stays NaN.  (In
this pipeline NaN occurs only at the head of the input, and infinities
never occur, so the remaining cases are unreachable; they emit NaN.) -/
def ewmGo (α : ℚ) : Option ℚ → List FVal → List FVal
  | _, [] => []
  | none, FVal.nan :: xs => FVal.nan :: ewmGo α none xs
  | none, FVal.num x :: xs => FVal.num x :: ewmGo α (some x) xs
  | some m, FVal.nan :: xs => FVal.num m :: ewmGo α (some m) xs
  | some m, FVal.num x :: xs =>
      FVal.num ((1 - α) * m + α * x) :: ewmGo α (some ((1 - α) * m + α * x)) xs
  | s, _ :: xs => FVal.nan :: ewmGo α s xs

/-- `Series.ewm(alpha=α, adjust=False).mean()`. -/
def ewmMean (α : ℚ) (xs : List FVal) : List FVal :=
  ewmGo α none xs

/-- `avg_gain = gain.ewm(alpha=1/period, adjust=False).mean()` (line 86). -/
def avg_gain (close : List ℚ) (period : ℕ) : List FVal :=
  ewmMean (1 / (period : ℚ)) (gain close)

/-- `avg_loss = loss.ewm(alpha=1/period, adjust=False).mean()` (line 87). -/
def avg_loss (close : List ℚ) (period : ℕ) : List FVal :=
  ewmMean (1 / (period : ℚ)) (loss close)

/-- `rs = avg_gain / avg_loss` (line 88): element-wise IEEE division. -/
def rs (close : List ℚ) (period : ℕ) : List FVal :=
  List.zipWith FVal.div (avg_gain close period) (avg_loss close period)

/-- One cell of `rsi = 100 - (100 / (1 + rs))` (line 89), evaluated with
IEEE semantics on the broadcast constants. -/
def rsiCell (r : FVal) : FVal :=
  (FVal.num 100).sub ((FVal.num 100).div ((FVal.num 1).add r))

/-- `calculate_rsi(data, period)` (lines 82-90). -/
def calculate_rsi (close : List ℚ) (period : ℕ) : List FVal :=
  (rs close period).map rsiCell

/-- `calculate_macd(data, short_period, long_period, signal_period)`
(lines 92-97).  `ewm(span=n, adjust=False)` uses `α = 2/(n+1)`.
Returns the pair `(macd, signal)`. -/
def calculate_macd (close : List ℚ) (short_period long_period signal_period : ℕ) :
    List FVal × List FVal :=
  let short_ema := ewmMean (2 / ((short_period : ℚ) + 1)) (close.map FVal.num)
  let long_ema := ewmMean (2 / ((long_period : ℚ) + 1)) (close.map FVal.num)
  let macd := List.zipWith FVal.sub short_ema long_ema
  let signal := ewmMean (2 / ((signal_period : ℚ) + 1)) macd
  (macd, signal)

/-- `calculate_sma(data, period) = data['Close'].rolling(window=period).mean()`
(lines 99-100): NaN until a full window of `period` observations ends at
`i`, then the arithmetic mean of that trailing window. -/
def calculate_sma (close : List ℚ) (period : ℕ) : List FVal :=
  (List.range close.length).map fun i =>
    if i + 1 < period then FVal.nan
    else FVal.num (((close.take (i + 1)).drop (i + 1 - period)).sum / (period : ℚ))

/-! ## Top-level glue (lines 103-115) -/

/-- One row of the downloaded DataFrame: a timestamp (the index) and the
`'Close'` price.  Timestamps are carried but — as in the source — never
consulted by any computation. -/
structure Observation where
  ts : ℤ
  close : ℚ
deriving DecidableEq, Repr

/-- `current_rsi = stock_data['RSI'].iloc[-1]` (line 114): the last cell of
the RSI column.  (The column is non-empty whenever the data is, which the
caller guards; the default is irrelevant there.) -/
def current_rsi (close : List ℚ) (period : ℕ) : FVal :=
  (calculate_rsi close period).getLast?.getD FVal.nan

/-- `rsi_status` (line 115):
`"Overbought" if current_rsi > 70 else "Oversold" if current_rsi < 30 else "Neutral"`,
with IEEE comparisons (so a NaN falls through to `"Neutral"`). -/
def rsi_status (cur : FVal) : String :=
  if cur.fgt (FVal.num 70) then "Overbought"
  else if cur.flt (FVal.num 30) then "Oversold"
  else "Neutral"

/-- The module's main logic (lines 103-115): if the downloaded series is
empty, show an error and compute nothing (`none`); otherwise compute the
RSI/SMA/MACD/Signal columns and the regime string.  No other validation
(in particular no sortedness check on the timestamps) exists in the code. -/
def processSeries (series : List Observation) (rsi_period sma_period
    macd_short_period macd_long_period macd_signal_period : ℕ) :
    Option (List FVal × List FVal × List FVal × List FVal × String) :=
  if series = [] then none
  else
    let close := series.map Observation.close
    let rsiCol := calculate_rsi close rsi_period
    let smaCol := calculate_sma close sma_period
    let md := calculate_macd close macd_short_period macd_long_period macd_signal_period
    let cur := rsiCol.getLast?.getD FVal.nan
    some (rsiCol, smaCol, md.1, md.2, rsi_status cur)

/-! ## Reference recurrences (for stating the claims)

These are the closed-form recurrences the spec describes; the theorems
below relate the pandas-derived definitions above to them. -/

/-- Trailing gains of a price list: `max (price[i] - price[i-1]) 0`. -/
def gainsFrom (prev : ℚ) : List ℚ → List ℚ
  | [] => []
  | x :: xs => max (x - prev) 0 :: gainsFrom x xs

/-- Trailing losses of a price list: `max (price[i-1] - price[i]) 0`. -/
def lossesFrom (prev : ℚ) : List ℚ → List ℚ
  | [] => []
  | x :: xs => max (prev - x) 0 :: lossesFrom x xs

/-- The `adjust=False` exponential recurrence `m' = (1-α)·m + α·x`, started
from mean `m` (the list returned holds the means after each observation). -/
def ewmRun (α : ℚ) : ℚ → List ℚ → List ℚ
  | _, [] => []
  | m, x :: xs => ((1 - α) * m + α * x) :: ewmRun α ((1 - α) * m + α * x) xs

/-- Wilder's recurrence exactly as the spec words it:
`avg[i] = (avg[i-1]·(period-1) + value[i]) / period`, run from seed `m`. -/
def wilderRec (period : ℕ) : ℚ → List ℚ → List ℚ
  | _, [] => []
  | m, x :: xs => ((m * ((period : ℚ) - 1) + x) / (period : ℚ)) ::
      wilderRec period ((m * ((period : ℚ) - 1) + x) / (period : ℚ)) xs

/-- The EMA recurrence exactly as the spec words it:
`ema[i] = price[i]·k + ema[i-1]·(1-k)`, run from seed `m`. -/
def emaSpecRun (k : ℚ) : ℚ → List ℚ → List ℚ
  | _, [] => []
  | m, x :: xs => (x * k + m * (1 - k)) :: emaSpecRun k (x * k + m * (1 - k)) xs

/-- The EMA as the spec describes it: seeded by the first price
(`ema[0] = price[0]`), then the recurrence above. -/
def emaSpec (k : ℚ) : List ℚ → List ℚ
  | [] => []
  | x :: xs => x :: emaSpecRun k x xs

/-! ## Helper lemmas -/

theorem ewmGo_some_map_num (α : ℚ) (m : ℚ) (xs : List ℚ) :
    ewmGo α (some m) (xs.map FVal.num) = (ewmRun α m xs).map FVal.num := by
  induction xs generalizing m with
  | nil => rfl
  | cons x xs ih => simp [ewmGo, ewmRun, ih]

theorem ewmRun_eq_wilderRec (period : ℕ) (hp : 0 < period) (m : ℚ) (xs : List ℚ) :
    ewmRun (1 / (period : ℚ)) m xs = wilderRec period m xs := by
  have hq : ((period : ℚ)) ≠ 0 := by
    exact_mod_cast Nat.pos_iff_ne_zero.mp hp
  induction xs generalizing m with
  | nil => rfl
  | cons x xs ih =>
    have hstep : (1 - 1 / (period : ℚ)) * m + (1 / (period : ℚ)) * x =
        (m * ((period : ℚ) - 1) + x) / (period : ℚ) := by
      field_simp
      ring
    simp only [ewmRun, wilderRec, hstep, ih]

theorem ewmRun_eq_emaSpecRun (k : ℚ) (m : ℚ) (xs : List ℚ) :
    ewmRun k m xs = emaSpecRun k m xs := by
  induction xs generalizing m with
  | nil => rfl
  | cons x xs ih =>
    have hstep : (1 - k) * m + k * x = x * k + m * (1 - k) := by ring
    simp only [ewmRun, emaSpecRun, hstep, ih]

theorem ewmMean_map_num (α : ℚ) (xs : List ℚ) :
    ewmMean α (xs.map FVal.num) = (emaSpec α xs).map FVal.num := by
  cases xs with
  | nil => rfl
  | cons x xs =>
    simp [ewmMean, ewmGo, emaSpec, ewmGo_some_map_num, ewmRun_eq_emaSpecRun]

theorem gain_cons (p : ℚ) (ps : List ℚ) :
    gain (p :: ps) = FVal.nan :: (gainsFrom p ps).map FVal.num := by
  simp only [gain, delta, List.map_cons, FVal.clipLower0]
  congr 1
  induction ps generalizing p with
  | nil => rfl
  | cons x xs ih => simp [diffFrom, gainsFrom, FVal.clipLower0, ih]

theorem loss_cons (p : ℚ) (ps : List ℚ) :
    loss (p :: ps) = FVal.nan :: (lossesFrom p ps).map FVal.num := by
  simp only [loss, delta, List.map_cons, FVal.clipUpper0, FVal.neg]
  congr 1
  induction ps generalizing p with
  | nil => rfl
  | cons x xs ih =>
    simp only [diffFrom, lossesFrom, List.map_cons, FVal.clipUpper0, FVal.neg, ih]
    congr 2
    rcases le_total (x - p) 0 with h | h
    · rw [min_eq_left h, max_eq_left (by linarith)]
      ring
    · rw [min_eq_right h, max_eq_right (by linarith)]
      ring

theorem avg_gain_cons₂ (p₀ p₁ : ℚ) (rest : List ℚ) (period : ℕ) :
    avg_gain (p₀ :: p₁ :: rest) period = FVal.nan :: FVal.num (max (p₁ - p₀) 0) ::
      (ewmRun (1 / (period : ℚ)) (max (p₁ - p₀) 0) (gainsFrom p₁ rest)).map FVal.num := by
  rw [avg_gain, gain_cons]
  simp [gainsFrom, ewmMean, ewmGo, ewmGo_some_map_num]

theorem avg_loss_cons₂ (p₀ p₁ : ℚ) (rest : List ℚ) (period : ℕ) :
    avg_loss (p₀ :: p₁ :: rest) period = FVal.nan :: FVal.num (max (p₀ - p₁) 0) ::
      (ewmRun (1 / (period : ℚ)) (max (p₀ - p₁) 0) (lossesFrom p₁ rest)).map FVal.num := by
  rw [avg_loss, loss_cons]
  simp [lossesFrom, ewmMean, ewmGo, ewmGo_some_map_num]

/-- "NaN or a nonnegative finite number": the shape of every cell of
`gain`, `loss`, `avg_gain` and `avg_loss`. -/
def nanOrNonneg (v : FVal) : Prop :=
  v = FVal.nan ∨ ∃ q : ℚ, v = FVal.num q ∧ 0 ≤ q

theorem delta_shape (close : List ℚ) :
    ∀ v ∈ delta close, v = FVal.nan ∨ ∃ q : ℚ, v = FVal.num q := by
  cases close with
  | nil => intro v hv; simp [delta] at hv
  | cons p ps =>
    intro v hv
    rcases List.mem_cons.mp hv with rfl | hv
    · exact Or.inl rfl
    · obtain ⟨q, _, rfl⟩ := List.mem_map.mp hv
      exact Or.inr ⟨q, rfl⟩

theorem gain_shape (close : List ℚ) : ∀ v ∈ gain close, nanOrNonneg v := by
  intro v hv
  obtain ⟨w, hw, rfl⟩ := List.mem_map.mp hv
  rcases delta_shape close w hw with rfl | ⟨q, rfl⟩
  · exact Or.inl rfl
  · exact Or.inr ⟨max q 0, rfl, le_max_right q 0⟩

theorem loss_shape (close : List ℚ) : ∀ v ∈ loss close, nanOrNonneg v := by
  intro v hv
  obtain ⟨w, hw, rfl⟩ := List.mem_map.mp hv
  rcases delta_shape close w hw with rfl | ⟨q, rfl⟩
  · exact Or.inl rfl
  · exact Or.inr ⟨-(min q 0), rfl, neg_nonneg.mpr (min_le_right q 0)⟩

theorem ewmGo_shape (α : ℚ) (h0 : 0 ≤ α) (h1 : α ≤ 1) :
    ∀ (xs : List FVal) (s : Option ℚ), (∀ m, s = some m → 0 ≤ m) →
      (∀ v ∈ xs, nanOrNonneg v) → ∀ v ∈ ewmGo α s xs, nanOrNonneg v := by
  intro xs
  induction xs with
  | nil => intro s _ _ v hv; simp [ewmGo] at hv
  | cons x xs ih =>
    intro s hs hxs v hv
    have hx : nanOrNonneg x := hxs x (List.mem_cons_self x xs)
    have hxs' : ∀ v ∈ xs, nanOrNonneg v := fun v hv => hxs v (List.mem_cons_of_mem x hv)
    rcases hx with rfl | ⟨q, rfl, hq⟩
    · cases s with
      | none =>
        rcases List.mem_cons.mp hv with rfl | hv
        · exact Or.inl rfl
        · exact ih none (by intro m hm; cases hm) hxs' v hv
      | some m =>
        have hm : 0 ≤ m := hs m rfl
        rcases List.mem_cons.mp hv with rfl | hv
        · exact Or.inr ⟨m, rfl, hm⟩
        · exact ih (some m) (by intro m' hm'; cases hm'; exact hm) hxs' v hv
    · cases s with
      | none =>
        rcases List.mem_cons.mp hv with rfl | hv
        · exact Or.inr ⟨q, rfl, hq⟩
        · exact ih (some q) (by intro m' hm'; cases hm'; exact hq) hxs' v hv
      | some m =>
        have hm : 0 ≤ m := hs m rfl
        have hnew : 0 ≤ (1 - α) * m + α * q :=
          add_nonneg (mul_nonneg (by linarith) hm) (mul_nonneg h0 hq)
        rcases List.mem_cons.mp hv with rfl | hv
        · exact Or.inr ⟨(1 - α) * m + α * q, rfl, hnew⟩
        · exact ih (some ((1 - α) * m + α * q))
            (by intro m' hm'; cases hm'; exact hnew) hxs' v hv

theorem alpha_of_period_nonneg (period : ℕ) : 0 ≤ 1 / (period : ℚ) := by positivity

theorem alpha_of_period_le_one (period : ℕ) (hp : 0 < period) : 1 / (period : ℚ) ≤ 1 := by
  rw [div_le_one (by exact_mod_cast hp)]
  exact_mod_cast hp

theorem avg_gain_shape (close : List ℚ) (period : ℕ) (hp : 0 < period) :
    ∀ v ∈ avg_gain close period, nanOrNonneg v :=
  ewmGo_shape _ (alpha_of_period_nonneg period) (alpha_of_period_le_one period hp)
    (gain close) none (by intro m hm; cases hm) (gain_shape close)

theorem avg_loss_shape (close : List ℚ) (period : ℕ) (hp : 0 < period) :
    ∀ v ∈ avg_loss close period, nanOrNonneg v :=
  ewmGo_shape _ (alpha_of_period_nonneg period) (alpha_of_period_le_one period hp)
    (loss close) none (by intro m hm; cases hm) (loss_shape close)

theorem exists_of_mem_zipWith {α β γ : Type} {f : α → β → γ} :
    ∀ {as : List α} {bs : List β} {c : γ},
      c ∈ List.zipWith f as bs → ∃ a b, a ∈ as ∧ b ∈ bs ∧ c = f a b := by
  intro as
  induction as with
  | nil => intro bs c h; simp at h
  | cons a as ih =>
    intro bs c h
    cases bs with
    | nil => simp at h
    | cons b bs =>
      rcases List.mem_cons.mp h with rfl | h
      · exact ⟨a, b, List.mem_cons_self a as, List.mem_cons_self b bs, rfl⟩
      · obtain ⟨a', b', ha, hb, hc⟩ := ih h
        exact ⟨a', b', List.mem_cons_of_mem a ha, List.mem_cons_of_mem b hb, hc⟩

theorem FVal.nan_div (l : FVal) : FVal.nan.div l = FVal.nan := by
  cases l <;> rfl

theorem rsiCell_div_bounds {g l : FVal} (hg : nanOrNonneg g) (hl : nanOrNonneg l) :
    rsiCell (g.div l) = FVal.nan ∨
      ∃ q : ℚ, rsiCell (g.div l) = FVal.num q ∧ 0 ≤ q ∧ q ≤ 100 := by
  rcases hg with rfl | ⟨a, rfl, ha⟩
  · exact Or.inl (by rw [FVal.nan_div]; rfl)
  rcases hl with rfl | ⟨b, rfl, hb⟩
  · exact Or.inl rfl
  by_cases hb0 : b = 0
  · subst hb0
    by_cases ha0 : a = 0
    · subst ha0
      left
      simp [FVal.div, rsiCell, FVal.add, FVal.sub]
    · have hapos : 0 < a := lt_of_le_of_ne ha (Ne.symm ha0)
      right
      refine ⟨100, ?_, by norm_num, le_refl 100⟩
      simp [FVal.div, ha0, hapos, rsiCell, FVal.add, FVal.sub]
  · have hbpos : 0 < b := lt_of_le_of_ne hb (Ne.symm hb0)
    have hr : 0 ≤ a / b := div_nonneg ha hb
    have h1r : (0 : ℚ) < 1 + a / b := by linarith
    right
    refine ⟨100 - 100 / (1 + a / b), ?_, ?_, ?_⟩
    · simp [FVal.div, hb0, rsiCell, FVal.add, FVal.sub, ne_of_gt h1r]
    · have h100 : 100 / (1 + a / b) ≤ 100 := by
        rw [div_le_iff₀ h1r]
        nlinarith
      linarith
    · have hpos : 0 < 100 / (1 + a / b) := by positivity
      linarith


/-! ## Claims -/

/-- **C1** (counterexample).  The claim asserts Wilder seeding (simple mean
of the first `period` gains at index `period`) and that `rsi[i]` is
undefined for every `i < period`.  On `[10, 11, 10]` with `period = 3` the
code produces the defined value `100` at index `1 < 3`; and on
`[10, 11, 10, 12, 9]` with `period = 3` the smoothed gain at index
`3 = period` is `10/9`, not the simple mean `(1 + 0 + 2)/3 = 1` of the
first three gains. -/
theorem claim_C1_counterexample :
    (calculate_rsi [10, 11, 10] 3).get? 1 = some (FVal.num 100) ∧
    (FVal.num 100).isNum = true ∧
    (avg_gain [10, 11, 10, 12, 9] 3).get? 3 = some (FVal.num (10 / 9)) ∧
    (10 : ℚ) / 9 ≠ (1 + 0 + 2) / 3 := by
  refine ⟨?_, rfl, ?_, by norm_num⟩
  · norm_num [calculate_rsi, rs, avg_gain, avg_loss, gain, loss, delta, diffFrom, ewmMean,
      ewmGo, rsiCell, FVal.clipLower0, FVal.clipUpper0, FVal.neg, FVal.add, FVal.sub,
      FVal.div, max_def, min_def, List.get?]
  · norm_num [avg_gain, gain, delta, diffFrom, ewmMean, ewmGo, FVal.clipLower0,
      max_def, min_def, List.get?]

/-- **C1** (amended).  What `calculate_rsi` actually does:
`ewm(alpha=1/period, adjust=False)` seeds each smoothed average at index 1
with the first gain/loss itself (`avg[1] = value[1]`), not with the simple
mean of the first `period` values at index `period`; from there it follows
the Wilder recurrence `avg[i] = (avg[i-1]·(period-1) + value[i]) / period`.
Only index 0 is structurally undefined (`diff` puts NaN there); and the
constant 5-point series with `rsiPeriod = 14` is all-undefined only because
every index divides `0/0` (NaN), not because of a warm-up window. -/
theorem claim_C1 (p₀ p₁ : ℚ) (rest : List ℚ) (period : ℕ) (hp : 0 < period) :
    avg_gain (p₀ :: p₁ :: rest) period = FVal.nan :: FVal.num (max (p₁ - p₀) 0) ::
      (wilderRec period (max (p₁ - p₀) 0) (gainsFrom p₁ rest)).map FVal.num ∧
    avg_loss (p₀ :: p₁ :: rest) period = FVal.nan :: FVal.num (max (p₀ - p₁) 0) ::
      (wilderRec period (max (p₀ - p₁) 0) (lossesFrom p₁ rest)).map FVal.num ∧
    (calculate_rsi (p₀ :: p₁ :: rest) period).get? 0 = some FVal.nan ∧
    calculate_rsi (List.replicate 5 100) 14 = List.replicate 5 FVal.nan := by
  refine ⟨?_, ?_, ?_, ?_⟩
  · rw [avg_gain_cons₂, ewmRun_eq_wilderRec period hp]
  · rw [avg_loss_cons₂, ewmRun_eq_wilderRec period hp]
  · rw [calculate_rsi, rs, avg_gain_cons₂, avg_loss_cons₂]
    rfl
  · norm_num [calculate_rsi, rs, avg_gain, avg_loss, gain, loss, delta, diffFrom, ewmMean,
      ewmGo, rsiCell, FVal.clipLower0, FVal.clipUpper0, FVal.neg, FVal.add, FVal.sub,
      FVal.div, max_def, min_def, List.replicate]

/-- Witness for the amended C1, at `[10, 11, 10]` with `period = 3`. -/
theorem claim_C1_witness :
    avg_gain [10, 11, 10] 3 = FVal.nan :: FVal.num (max (11 - 10 : ℚ) 0) ::
      (wilderRec 3 (max (11 - 10 : ℚ) 0) (gainsFrom 11 [10])).map FVal.num ∧
    avg_loss [10, 11, 10] 3 = FVal.nan :: FVal.num (max (10 - 11 : ℚ) 0) ::
      (wilderRec 3 (max (10 - 11 : ℚ) 0) (lossesFrom 11 [10])).map FVal.num ∧
    (calculate_rsi [10, 11, 10] 3).get? 0 = some FVal.nan ∧
    calculate_rsi (List.replicate 5 100) 14 = List.replicate 5 FVal.nan :=
  claim_C1 10 11 [10] 3 (by norm_num)

/-- **C2** (confirmed).  For a series of at least 2 observations and a
positive period, every defined (finite) value of the RSI column lies in
`[0, 100]`: the smoothed averages are NaN-or-nonnegative, and the cell
formula `100 - 100/(1 + g/l)` then lands in `[0, 100)` for `l > 0`, in
`{100}` for `l = 0 < g`, and is NaN otherwise. -/
theorem claim_C2 (close : List ℚ) (period : ℕ) (hp : 0 < period)
    (hlen : 2 ≤ close.length) :
    ∀ q : ℚ, FVal.num q ∈ calculate_rsi close period → 0 ≤ q ∧ q ≤ 100 := by
  intro q hq
  rw [calculate_rsi] at hq
  obtain ⟨r, hr, hrq⟩ := List.mem_map.mp hq
  rw [rs] at hr
  obtain ⟨g, l, hg, hl, rfl⟩ := exists_of_mem_zipWith hr
  rcases rsiCell_div_bounds (avg_gain_shape close period hp g hg)
      (avg_loss_shape close period hp l hl) with hnan | ⟨q', hq', h0, h100⟩
  · rw [hnan] at hrq
    cases hrq
  · rw [hq'] at hrq
    cases hrq
    exact ⟨h0, h100⟩

/-- Witness for C2 at `[10, 11, 10]`, `period = 3`, value `100`. -/
theorem claim_C2_witness : (0 : ℚ) ≤ 100 ∧ (100 : ℚ) ≤ 100 :=
  claim_C2 [10, 11, 10] 3 (by norm_num) (by decide) 100 (by
    have h : calculate_rsi [10, 11, 10] 3 = [FVal.nan, FVal.num 100, FVal.num (200 / 3)] := by
      norm_num [calculate_rsi, rs, avg_gain, avg_loss, gain, loss, delta, diffFrom, ewmMean,
        ewmGo, rsiCell, FVal.clipLower0, FVal.clipUpper0, FVal.neg, FVal.add, FVal.sub,
        FVal.div, max_def, min_def]
    rw [h]
    simp)

/-- **C3** (counterexample).  The claim asserts `rsi = 50` where both
smoothed averages are zero.  On the flat series `[100,100,100,100,100]`
with `period = 14`, both averages at index 2 are exactly `0`, yet the code
computes `0/0 = NaN` and the RSI cell is NaN — not `50`. -/
theorem claim_C3_counterexample :
    (avg_gain [100, 100, 100, 100, 100] 14).get? 2 = some (FVal.num 0) ∧
    (avg_loss [100, 100, 100, 100, 100] 14).get? 2 = some (FVal.num 0) ∧
    (calculate_rsi [100, 100, 100, 100, 100] 14).get? 2 = some FVal.nan ∧
    FVal.nan ≠ FVal.num 50 := by
  refine ⟨?_, ?_, ?_, by decide⟩
  · norm_num [avg_gain, gain, delta, diffFrom, ewmMean, ewmGo, FVal.clipLower0,
      max_def, min_def, List.get?]
  · norm_num [avg_loss, loss, delta, diffFrom, ewmMean, ewmGo, FVal.clipUpper0, FVal.neg,
      max_def, min_def, List.get?]
  · norm_num [calculate_rsi, rs, avg_gain, avg_loss, gain, loss, delta, diffFrom, ewmMean,
      ewmGo, rsiCell, FVal.clipLower0, FVal.clipUpper0, FVal.neg, FVal.add, FVal.sub,
      FVal.div, max_def, min_def, List.get?]

/-- **C3** (amended).  At every index where both the smoothed average gain
and the smoothed average loss are zero (flat price), the RSI value is NaN
(undefined): `rs = 0/0` is NaN and the cell formula propagates it.  There
is no `50` policy anywhere in the code. -/
theorem claim_C3 (close : List ℚ) (period i : ℕ)
    (hg : (avg_gain close period).get? i = some (FVal.num 0))
    (hl : (avg_loss close period).get? i = some (FVal.num 0)) :
    (calculate_rsi close period).get? i = some FVal.nan := by
  rw [calculate_rsi, List.get?_map, rs, List.get?_zipWith', hg, hl]
  norm_num [rsiCell, FVal.div, FVal.add, FVal.sub]

/-- Witness for the amended C3, at `[100, 100]` with `period = 1`. -/
theorem claim_C3_witness : (calculate_rsi [100, 100] 1).get? 1 = some FVal.nan :=
  claim_C3 [100, 100] 1 1
    (by norm_num [avg_gain, gain, delta, diffFrom, ewmMean, ewmGo, FVal.clipLower0,
      max_def, min_def, List.get?])
    (by norm_num [avg_loss, loss, delta, diffFrom, ewmMean, ewmGo, FVal.clipUpper0, FVal.neg,
      max_def, min_def, List.get?])

/-- **C4** (confirmed).  Wherever the smoothed average loss is zero and the
smoothed average gain is positive, the RSI cell is exactly `100`
(`rs = g/0 = +inf` and `100 - 100/(1 + inf) = 100`); and on the strictly
increasing series `[10, 11, 12, 13, 14, 15, 16]` with `rsiPeriod = 3`
every defined RSI value is `100` (index 0 is the NaN from `diff`). -/
theorem claim_C4 :
    (∀ (close : List ℚ) (period i : ℕ) (g₀ : ℚ),
      (avg_gain close period).get? i = some (FVal.num g₀) → 0 < g₀ →
      (avg_loss close period).get? i = some (FVal.num 0) →
      (calculate_rsi close period).get? i = some (FVal.num 100)) ∧
    calculate_rsi [10, 11, 12, 13, 14, 15, 16] 3 =
      [FVal.nan, FVal.num 100, FVal.num 100, FVal.num 100,
        FVal.num 100, FVal.num 100, FVal.num 100] := by
  constructor
  · intro close period i g₀ hg hpos hl
    rw [calculate_rsi, List.get?_map, rs, List.get?_zipWith', hg, hl]
    simp [FVal.div, rsiCell, FVal.add, FVal.sub, hpos, hpos.ne']
  · norm_num [calculate_rsi, rs, avg_gain, avg_loss, gain, loss, delta, diffFrom, ewmMean,
      ewmGo, rsiCell, FVal.clipLower0, FVal.clipUpper0, FVal.neg, FVal.add, FVal.sub,
      FVal.div, max_def, min_def]

/-- Witness for C4 at `[10, 12]` with `period = 5`, smoothed gain `2`. -/
theorem claim_C4_witness : (calculate_rsi [10, 12] 5).get? 1 = some (FVal.num 100) :=
  claim_C4.1 [10, 12] 5 1 2
    (by norm_num [avg_gain, gain, delta, diffFrom, ewmMean, ewmGo, FVal.clipLower0,
      max_def, min_def, List.get?])
    (by norm_num)
    (by norm_num [avg_loss, loss, delta, diffFrom, ewmMean, ewmGo, FVal.clipUpper0, FVal.neg,
      max_def, min_def, List.get?])

theorem length_emaSpecRun (k m : ℚ) (xs : List ℚ) :
    (emaSpecRun k m xs).length = xs.length := by
  induction xs generalizing m with
  | nil => rfl
  | cons x xs ih => simp [emaSpecRun, ih]

theorem length_emaSpec (k : ℚ) (xs : List ℚ) : (emaSpec k xs).length = xs.length := by
  cases xs with
  | nil => rfl
  | cons x xs => simp [emaSpec, length_emaSpecRun]

theorem zipWith_sub_map_num (as bs : List ℚ) :
    List.zipWith FVal.sub (as.map FVal.num) (bs.map FVal.num) =
      (List.zipWith (fun a b => a - b) as bs).map FVal.num := by
  induction as generalizing bs with
  | nil => simp
  | cons a as ih =>
    cases bs with
    | nil => simp
    | cons b bs => simp [FVal.sub, ih]

/-- The full characterisation of `calculate_macd`: both series are the
`FVal.num`-image of the spec's EMA recurrences, with no precondition on
the periods. -/
theorem calculate_macd_eq (close : List ℚ) (sp lp sgp : ℕ) :
    calculate_macd close sp lp sgp =
      ((List.zipWith (fun a b => a - b) (emaSpec (2 / ((sp : ℚ) + 1)) close)
          (emaSpec (2 / ((lp : ℚ) + 1)) close)).map FVal.num,
        (emaSpec (2 / ((sgp : ℚ) + 1)) (List.zipWith (fun a b => a - b)
          (emaSpec (2 / ((sp : ℚ) + 1)) close)
          (emaSpec (2 / ((lp : ℚ) + 1)) close))).map FVal.num) := by
  rw [calculate_macd]
  simp only [ewmMean_map_num, zipWith_sub_map_num]

theorem all_isNum_map_num (xs : List ℚ) : (xs.map FVal.num).all FVal.isNum = true := by
  rw [List.all_eq_true]
  intro v hv
  obtain ⟨q, _, rfl⟩ := List.mem_map.mp hv
  rfl

/-- **C5** (counterexample).  The claim asserts that `shortPeriod ≥
longPeriod` fails with `InvalidParameters`.  `calculate_macd` has no
parameter validation at all: with `shortPeriod = 26 ≥ 12 = longPeriod` on
`[1, 2, 3]` it silently returns fully-defined numeric MACD and signal
series. -/
theorem claim_C5_counterexample :
    (26 : ℕ) ≥ 12 ∧
    calculate_macd [1, 2, 3] 26 12 9 =
      ([FVal.num 0, FVal.num (-28 / 351), FVal.num (-27244 / 123201)],
        [FVal.num 0, FVal.num (-28 / 1755), FVal.num (-175532 / 3080025)]) := by
  constructor
  · norm_num
  · norm_num [calculate_macd, ewmMean, ewmGo, FVal.sub]

/-- **C5** (amended).  `calculate_macd` performs no validation of its
periods: for every combination, including `shortPeriod ≥ longPeriod`, it
computes and returns MACD and signal series that are fully numeric and
aligned to the input — there is no error path. -/
theorem claim_C5 (close : List ℚ) (sp lp sgp : ℕ) :
    (calculate_macd close sp lp sgp).1.length = close.length ∧
    (calculate_macd close sp lp sgp).2.length = close.length ∧
    (calculate_macd close sp lp sgp).1.all FVal.isNum = true ∧
    (calculate_macd close sp lp sgp).2.all FVal.isNum = true := by
  rw [calculate_macd_eq]
  refine ⟨?_, ?_, all_isNum_map_num _, all_isNum_map_num _⟩
  · simp [List.length_zipWith, length_emaSpec]
  · simp [List.length_zipWith, length_emaSpec]

/-- **C6** (confirmed).  `rsi_status` classifies strictly-greater-than 70
as `"Overbought"`, strictly-less-than 30 as `"Oversold"`, and everything
in between — the boundaries 70 and 30 included — as `"Neutral"`. -/
theorem claim_C6 :
    (∀ q : ℚ, 70 < q → rsi_status (FVal.num q) = "Overbought") ∧
    (∀ q : ℚ, q < 30 → rsi_status (FVal.num q) = "Oversold") ∧
    (∀ q : ℚ, 30 ≤ q → q ≤ 70 → rsi_status (FVal.num q) = "Neutral") ∧
    rsi_status (FVal.num 70) = "Neutral" ∧
    rsi_status (FVal.num 30) = "Neutral" := by
  have hcase : ∀ q : ℚ, 30 ≤ q → q ≤ 70 → rsi_status (FVal.num q) = "Neutral" := by
    intro q h1 h2
    have h3 : ¬ (70 : ℚ) < q := by linarith
    have h4 : ¬ q < (30 : ℚ) := by linarith
    simp [rsi_status, FVal.fgt, FVal.flt, h3, h4]
  refine ⟨?_, ?_, hcase, hcase 70 (by norm_num) (by norm_num),
    hcase 30 (by norm_num) (by norm_num)⟩
  · intro q h
    simp [rsi_status, FVal.fgt, h]
  · intro q h
    have h3 : ¬ (70 : ℚ) < q := by linarith
    simp [rsi_status, FVal.fgt, FVal.flt, h3, h]

/-- Witness for C6 at the concrete values 80, 20 and 50. -/
theorem claim_C6_witness :
    rsi_status (FVal.num 80) = "Overbought" ∧
    rsi_status (FVal.num 20) = "Oversold" ∧
    rsi_status (FVal.num 50) = "Neutral" :=
  ⟨claim_C6.1 80 (by norm_num), claim_C6.2.1 20 (by norm_num),
    claim_C6.2.2.1 50 (by norm_num) (by norm_num)⟩

/-- **C7** (confirmed).  For every non-empty price series, the MACD and
signal series are fully defined from index 0 and aligned to the input:
each EMA is seeded `ema[0] = price[0]` with recurrence
`ema[i] = price[i]·k + ema[i-1]·(1-k)`, `k = 2/(period+1)` (this is
exactly `emaSpec`); `macd` is their pointwise difference and `signal` is
the EMA of `macd` under the same rule. -/
theorem claim_C7 (close : List ℚ) (sp lp sgp : ℕ) (h : close ≠ []) :
    (calculate_macd close sp lp sgp).1 =
      (List.zipWith (fun a b => a - b) (emaSpec (2 / ((sp : ℚ) + 1)) close)
        (emaSpec (2 / ((lp : ℚ) + 1)) close)).map FVal.num ∧
    (calculate_macd close sp lp sgp).2 =
      (emaSpec (2 / ((sgp : ℚ) + 1)) (List.zipWith (fun a b => a - b)
        (emaSpec (2 / ((sp : ℚ) + 1)) close)
        (emaSpec (2 / ((lp : ℚ) + 1)) close))).map FVal.num ∧
    (calculate_macd close sp lp sgp).1.length = close.length ∧
    (calculate_macd close sp lp sgp).2.length = close.length := by
  rw [calculate_macd_eq]
  refine ⟨rfl, rfl, ?_, ?_⟩
  · simp [List.length_zipWith, length_emaSpec]
  · simp [List.length_zipWith, length_emaSpec]

/-- Witness for C7 at `[5]` with periods `(1, 2, 3)`. -/
theorem claim_C7_witness :
    (calculate_macd [5] 1 2 3).1 =
      (List.zipWith (fun a b => a - b) (emaSpec (2 / (((1 : ℕ) : ℚ) + 1)) [5])
        (emaSpec (2 / (((2 : ℕ) : ℚ) + 1)) [5])).map FVal.num ∧
    (calculate_macd [5] 1 2 3).2 =
      (emaSpec (2 / (((3 : ℕ) : ℚ) + 1)) (List.zipWith (fun a b => a - b)
        (emaSpec (2 / (((1 : ℕ) : ℚ) + 1)) [5])
        (emaSpec (2 / (((2 : ℕ) : ℚ) + 1)) [5]))).map FVal.num ∧
    (calculate_macd [5] 1 2 3).1.length = ([5] : List ℚ).length ∧
    (calculate_macd [5] 1 2 3).2.length = ([5] : List ℚ).length :=
  claim_C7 [5] 1 2 3 (by simp)

/-- **C8** (confirmed).  `calculate_sma` returns, at every index `i` with
`i ≥ period - 1` (i.e. `period ≤ i + 1`), the arithmetic mean of the
trailing window `price[i-period+1 .. i]`, and NaN (never a partial-window
average, never zero) at every earlier index; in particular a 10-point
series with `period = 20` is all-NaN. -/
theorem claim_C8 :
    (∀ (close : List ℚ) (period i : ℕ), 0 < period → i < close.length →
      (period ≤ i + 1 →
        (calculate_sma close period).get? i =
          some (FVal.num (((close.drop (i + 1 - period)).take period).sum / (period : ℚ)))) ∧
      (i + 1 < period → (calculate_sma close period).get? i = some FVal.nan)) ∧
    calculate_sma [1, 2, 3, 4, 5, 6, 7, 8, 9, 10] 20 = List.replicate 10 FVal.nan := by
  constructor
  · intro close period i hp hi
    constructor
    · intro hpe
      have hlt : ¬ (i + 1 < period) := by omega
      have hwin : (close.take (i + 1)).drop (i + 1 - period) =
          (close.drop (i + 1 - period)).take period := by
        rw [List.drop_take]
        congr 1
        omega
      rw [calculate_sma, List.get?_map, List.get?_range hi]
      simp only [Option.map_some']
      rw [if_neg hlt, hwin]
    · intro hlt
      rw [calculate_sma, List.get?_map, List.get?_range hi]
      simp only [Option.map_some']
      rw [if_pos hlt]
  · rw [calculate_sma,
      show List.range (([1, 2, 3, 4, 5, 6, 7, 8, 9, 10] : List ℚ).length) =
        [0, 1, 2, 3, 4, 5, 6, 7, 8, 9] from rfl]
    norm_num [List.replicate]

/-- Witness for C8 at `[1, 2, 3]` with `period = 2`, index `2`. -/
theorem claim_C8_witness :
    (calculate_sma [1, 2, 3] 2).get? 2 =
      some (FVal.num (((([1, 2, 3] : List ℚ).drop (2 + 1 - 2)).take 2).sum / ((2 : ℕ) : ℚ))) :=
  (claim_C8.1 [1, 2, 3] 2 2 (by norm_num) (by decide)).1 (by norm_num)

/-- **C9** (counterexample).  The claim asserts a `NoRSIAvailable` failure
when no RSI value is defined.  The code has no such error: on the
5-point constant series with `period = 14` the whole RSI column is NaN,
`current_rsi = .iloc[-1]` is NaN, and the ternary classifies NaN as
`"Neutral"` (both IEEE comparisons are false), returning a regime anyway. -/
theorem claim_C9_counterexample :
    ((calculate_rsi [100, 100, 100, 100, 100] 14).all fun v => v == FVal.nan) = true ∧
    rsi_status (current_rsi [100, 100, 100, 100, 100] 14) = "Neutral" := by
  have h : calculate_rsi [100, 100, 100, 100, 100] 14 = List.replicate 5 FVal.nan := by
    norm_num [calculate_rsi, rs, avg_gain, avg_loss, gain, loss, delta, diffFrom, ewmMean,
      ewmGo, rsiCell, FVal.clipLower0, FVal.clipUpper0, FVal.neg, FVal.add, FVal.sub,
      FVal.div, max_def, min_def, List.replicate]
  constructor
  · rw [h]
    rfl
  · rw [current_rsi, h]
    rfl

/-- **C9** (amended).  When the RSI series has no defined value (every cell
NaN), the code does not fail: `current_rsi` is the last cell (NaN, or the
default on an empty column) and `rsi_status` classifies it as
`"Neutral"`, because `NaN > 70` and `NaN < 30` are both false. -/
theorem claim_C9 (close : List ℚ) (period : ℕ)
    (h : ∀ v ∈ calculate_rsi close period, v = FVal.nan) :
    rsi_status (current_rsi close period) = "Neutral" := by
  rw [current_rsi]
  rcases hlast : (calculate_rsi close period).getLast? with _ | v
  · rfl
  · have hv : v = FVal.nan := h v (List.mem_of_mem_getLast? (by rw [hlast]; rfl))
    rw [hv]
    rfl

/-- Witness for the amended C9, at `[100, 100]` with `period = 14`. -/
theorem claim_C9_witness : rsi_status (current_rsi [100, 100] 14) = "Neutral" :=
  claim_C9 [100, 100] 14 (by
    have h : calculate_rsi [100, 100] 14 = [FVal.nan, FVal.nan] := by
      norm_num [calculate_rsi, rs, avg_gain, avg_loss, gain, loss, delta, diffFrom, ewmMean,
        ewmGo, rsiCell, FVal.clipLower0, FVal.clipUpper0, FVal.neg, FVal.add, FVal.sub,
        FVal.div, max_def, min_def]
    rw [h]
    intro v hv
    simpa using hv)

/-- **C10** (counterexample).  The claim asserts the engine fails fast on
an empty *or unsorted* series.  Only emptiness is checked: on a 2-point
series whose timestamps are out of order (2 before 1) the module computes
every indicator and even announces a regime — nothing fails. -/
theorem claim_C10_counterexample :
    ¬ List.Sorted (fun a b : Observation => a.ts ≤ b.ts) [⟨2, 10⟩, ⟨1, 11⟩] ∧
    processSeries [⟨2, 10⟩, ⟨1, 11⟩] 3 2 12 26 9 =
      some ([FVal.nan, FVal.num 100], [FVal.nan, FVal.num (21 / 2)],
        [FVal.num 0, FVal.num (28 / 351)], [FVal.num 0, FVal.num (28 / 1755)],
        "Overbought") := by
  constructor
  · norm_num [List.sorted_cons]
  · rw [processSeries,
      if_neg (show ¬ ([(⟨2, 10⟩ : Observation), ⟨1, 11⟩] = []) by simp)]
    norm_num [calculate_rsi, rs, avg_gain, avg_loss, gain, loss, delta,
      diffFrom, ewmMean, ewmGo, rsiCell, FVal.clipLower0, FVal.clipUpper0, FVal.neg,
      FVal.add, FVal.sub, FVal.div, calculate_sma, calculate_macd, rsi_status,
      FVal.fgt, FVal.flt, List.getLast?, max_def, min_def,
      show List.range 2 = [0, 1] from rfl]

/-- **C10** (amended).  The module's only fail-fast guard is emptiness: an
empty series produces no indicator values at all, while any non-empty
series — sorted or not (timestamps are never inspected) — is processed
and yields indicator output. -/
theorem claim_C10 :
    (∀ a b c d e : ℕ, processSeries [] a b c d e = none) ∧
    (∀ (series : List Observation) (a b c d e : ℕ), series ≠ [] →
      (processSeries series a b c d e).isSome = true) := by
  constructor
  · intro a b c d e
    rfl
  · intro series a b c d e h
    rw [processSeries, if_neg h]
    rfl

/-- Witness for the amended C10: the unsorted 2-point series is processed. -/
theorem claim_C10_witness :
    (processSeries [⟨2, 10⟩, ⟨1, 11⟩] 3 2 12 26 9).isSome = true :=
  claim_C10.2 [⟨2, 10⟩, ⟨1, 11⟩] 3 2 12 26 9 (by simp)
